import Mathlib

/-!
Verification development for the screener2eval trading demo.

The order-processing core (validation, cash freezing, fills, cancellation)
lives in the backend services; its behaviour is specified field-by-field in
the repository README (Order Lifecycle and Funds/Position Handling) and in
the design spec. Money and prices are modelled as rationals, quantities as
naturals. The frontend order gates are modelled from
frontend/app/components/trading/TradingPanel.tsx, and symbol normalisation
from frontend/app/components/ranking/RankingTable.tsx.
-/

namespace Screener

/-- Order side, per the README key order fields (BUY/SELL). -/
inductive Side
  | BUY
  | SELL
  deriving DecidableEq

/-- Order type, per the README key order fields (MARKET/LIMIT). -/
inductive OrderKind
  | MARKET
  | LIMIT
  deriving DecidableEq

/-- Order status, per the README key order fields (PENDING/FILLED/CANCELLED). -/
inductive OrderStatus
  | PENDING
  | FILLED
  | CANCELLED
  deriving DecidableEq

/-- Per-market static rule set: commission rate, minimum commission, lot size. -/
structure TradingConfig where
  commission_rate : ℚ
  min_commission : ℚ
  lot_size : ℕ
  deriving DecidableEq

/-- US market rules from the README: commission max(0.5% of notional, $1.00), lot size 1. -/
def usConfig : TradingConfig :=
  TradingConfig.mk (5 / 1000) 1 1

/-- Commission rule from the README: commission = max(commission_rate × notional, min_commission). -/
def commissionFor (cfg : TradingConfig) (notional : ℚ) : ℚ :=
  max (cfg.commission_rate * notional) cfg.min_commission

/-- Order record: symbol, side, order_type, optional limit price, quantity,
filled_quantity, status. -/
structure Order where
  symbol : String
  side : Side
  order_type : OrderKind
  price : Option ℚ
  quantity : ℕ
  filled_quantity : ℕ
  status : OrderStatus
  deriving DecidableEq

/-- Position record: per-symbol holding with quantity, available_quantity, avg_cost. -/
structure Position where
  symbol : String
  quantity : ℕ
  available_quantity : ℕ
  avg_cost : ℚ
  deriving DecidableEq

/-- User cash balances: current_cash and frozen_cash. -/
structure UserAccount where
  current_cash : ℚ
  frozen_cash : ℚ
  deriving DecidableEq

/-- Immutable execution record created on a fill. -/
structure Trade where
  symbol : String
  price : ℚ
  quantity : ℕ
  commission : ℚ
  deriving DecidableEq

/-- Single-user ledger: cash balances, positions and audit trades. -/
structure Ledger where
  user : UserAccount
  positions : List Position
  trades : List Trade
  deriving DecidableEq

/-- Look up the position row for a symbol. -/
def findPosition (ps : List Position) (sym : String) : Option Position :=
  ps.find? (fun p => p.symbol == sym)

/-- Write back a position row: replace the row with the same symbol, or insert a new one. -/
def updatePosition (ps : List Position) (q : Position) : List Position :=
  if (findPosition ps q.symbol).isSome then
    ps.map (fun p => if p.symbol == q.symbol then q else p)
  else
    ps ++ [q]

/-- Match rule from the README execution logic: MARKET always matches; LIMIT BUY
matches when market price <= limit price, LIMIT SELL when market price >= limit. -/
def priceMatches (o : Order) (p : ℚ) : Bool :=
  match o.order_type with
  | OrderKind.MARKET => true
  | OrderKind.LIMIT =>
    match o.price, o.side with
    | some lp, Side.BUY => decide (p ≤ lp)
    | some lp, Side.SELL => decide (lp ≤ p)
    | none, _ => false

/-- Outcome of one execution attempt: a whole-order fill or still pending. -/
inductive FillOutcome
  | Filled (t : Trade)
  | StillPending
  deriving DecidableEq

/-- Reference price from the README: min(limit_price, market_price) when both
available, otherwise whichever is available. -/
def refPrice : Option ℚ → Option ℚ → Option ℚ
  | some l, some m => some (min l m)
  | some l, none => some l
  | none, some m => some m
  | none, none => none

/-- Placement-time freeze estimate from the README: estimated notional at the
reference price plus the estimated commission computed from it. -/
def freezeEstimate (cfg : TradingConfig) (ref : ℚ) (qty : ℕ) : ℚ :=
  ref * (qty : ℚ) + commissionFor cfg (ref * (qty : ℚ))

/-- BUY fill per the README execution logic: deduct cash by notional+commission,
update or create the position with weighted-average cost, record the trade,
release frozen cash by max(frozen − (notional + commission), 0), and mark the
order FILLED. -/
def buyFill (cfg : TradingConfig) (o : Order) (p : ℚ) (st : Ledger) :
    FillOutcome × Order × Ledger :=
  let notional := p * (o.quantity : ℚ)
  let comm := commissionFor cfg notional
  let oldPos := (findPosition st.positions o.symbol).getD (Position.mk o.symbol 0 0 0)
  let newQty := oldPos.quantity + o.quantity
  let newAvg := (oldPos.avg_cost * (oldPos.quantity : ℚ) + notional) / (newQty : ℚ)
  let newPos := Position.mk o.symbol newQty (oldPos.available_quantity + o.quantity) newAvg
  let tr := Trade.mk o.symbol p o.quantity comm
  let u := UserAccount.mk (st.user.current_cash - (notional + comm))
    (max (st.user.frozen_cash - (notional + comm)) 0)
  let o2 := Order.mk o.symbol o.side o.order_type o.price o.quantity o.quantity OrderStatus.FILLED
  (FillOutcome.Filled tr, o2,
    Ledger.mk u (updatePosition st.positions newPos) (st.trades ++ [tr]))

/-- SELL fill per the README execution logic: require available_quantity >=
quantity, decrement quantity and available_quantity, add notional − commission
to cash, record the trade, and mark the order FILLED. -/
def sellFill (cfg : TradingConfig) (o : Order) (p : ℚ) (st : Ledger) :
    FillOutcome × Order × Ledger :=
  match findPosition st.positions o.symbol with
  | none => (FillOutcome.StillPending, o, st)
  | some pos =>
    if pos.available_quantity < o.quantity then (FillOutcome.StillPending, o, st)
    else
      let notional := p * (o.quantity : ℚ)
      let comm := commissionFor cfg notional
      let newPos := Position.mk o.symbol (pos.quantity - o.quantity)
        (pos.available_quantity - o.quantity) pos.avg_cost
      let tr := Trade.mk o.symbol p o.quantity comm
      let u := UserAccount.mk (st.user.current_cash + (notional - comm)) st.user.frozen_cash
      let o2 := Order.mk o.symbol o.side o.order_type o.price o.quantity o.quantity
        OrderStatus.FILLED
      (FillOutcome.Filled tr, o2,
        Ledger.mk u (updatePosition st.positions newPos) (st.trades ++ [tr]))

/-- Modelled from the spec: the executor of backend services/order_matching.py
is not shipped with the frontend sources; its fill behaviour follows the README
execution logic and spec 4.2. One execution attempt for an order: only PENDING
orders are processed, a missing market price leaves the order pending (the
sweeper retries it), a matched order fills whole, otherwise it stays pending. -/
def attemptFill (cfg : TradingConfig) (o : Order) (marketPrice : Option ℚ) (st : Ledger) :
    FillOutcome × Order × Ledger :=
  if o.status = OrderStatus.PENDING then
    match marketPrice with
    | none => (FillOutcome.StillPending, o, st)
    | some p =>
      if priceMatches o p then
        match o.side with
        | Side.BUY => buyFill cfg o p st
        | Side.SELL => sellFill cfg o p st
      else (FillOutcome.StillPending, o, st)
  else (FillOutcome.StillPending, o, st)

/-- Validation-time rejection reasons, per spec 4.1 and the README. -/
inductive RejectReason
  | UnsupportedMarket
  | InvalidQuantity
  | InsufficientFunds
  | InsufficientPosition
  deriving DecidableEq

/-- Incoming order request, per the place_order payload. -/
structure OrderRequest where
  symbol : String
  market : String
  side : Side
  order_type : OrderKind
  price : Option ℚ
  quantity : ℕ
  deriving DecidableEq

/-- Fresh PENDING order inserted on placement, with filled_quantity = 0. -/
def newOrder (req : OrderRequest) : Order :=
  Order.mk req.symbol req.side req.order_type req.price req.quantity 0 OrderStatus.PENDING

/-- Modelled from the spec: the validator of backend services/order_matching.py
is not shipped with the frontend sources; this follows spec 4.1 and the README
placement rules. Market must be US; quantity must be >= 1 and a multiple of
lot_size; SELL requires available_quantity >= quantity, else
InsufficientPosition; BUY computes the freeze estimate from the reference
price and rejects with InsufficientFunds only when the estimate exceeds the
unfrozen cash, otherwise freezes the estimate. On rejection the ledger is
returned unchanged and no order is produced. -/
def placeOrder (cfg : TradingConfig) (req : OrderRequest) (marketPrice : Option ℚ)
    (st : Ledger) : Except RejectReason Order × Ledger :=
  if req.market ≠ "US" then (Except.error RejectReason.UnsupportedMarket, st)
  else if req.quantity < 1 ∨ req.quantity % cfg.lot_size ≠ 0 then
    (Except.error RejectReason.InvalidQuantity, st)
  else if req.side = Side.SELL then
    match findPosition st.positions req.symbol with
    | none => (Except.error RejectReason.InsufficientPosition, st)
    | some pos =>
      if pos.available_quantity < req.quantity then
        (Except.error RejectReason.InsufficientPosition, st)
      else (Except.ok (newOrder req), st)
  else
    match refPrice req.price marketPrice with
    | none => (Except.error RejectReason.InsufficientFunds, st)
    | some ref =>
      let est := freezeEstimate cfg ref req.quantity
      if st.user.current_cash - st.user.frozen_cash < est then
        (Except.error RejectReason.InsufficientFunds, st)
      else
        (Except.ok (newOrder req),
          Ledger.mk (UserAccount.mk st.user.current_cash (st.user.frozen_cash + est))
            st.positions st.trades)

/-- Cancellation failure, per spec 4.3. -/
inductive CancelError
  | NotPending
  deriving DecidableEq

/-- Cancellation per the README: only PENDING orders cancel, otherwise
NotPending with nothing touched; a BUY cancel releases the estimate recomputed
from the reference price at cancel time; a SELL cancel releases nothing; the
order becomes CANCELLED. -/
def cancelOrder (cfg : TradingConfig) (o : Order) (marketPrice : Option ℚ) (st : Ledger) :
    Except CancelError Unit × Order × Ledger :=
  if o.status = OrderStatus.PENDING then
    let st2 :=
      match o.side with
      | Side.SELL => st
      | Side.BUY =>
        match refPrice o.price marketPrice with
        | none => st
        | some ref =>
          let amt := freezeEstimate cfg ref o.quantity
          Ledger.mk (UserAccount.mk st.user.current_cash (max (st.user.frozen_cash - amt) 0))
            st.positions st.trades
    (Except.ok (),
      Order.mk o.symbol o.side o.order_type o.price o.quantity o.filled_quantity
        OrderStatus.CANCELLED,
      st2)
  else (Except.error CancelError.NotPending, o, st)

/-- Operations that can touch an order after placement: an execution attempt
(immediate or from the sweeper) or a cancellation, each at some market price. -/
inductive ExecOp
  | fillAt (marketPrice : Option ℚ)
  | cancelAt (marketPrice : Option ℚ)

/-- Apply one post-placement operation to an order and the ledger. -/
def applyOp (cfg : TradingConfig) (op : ExecOp) (o : Order) (st : Ledger) : Order × Ledger :=
  match op with
  | ExecOp.fillAt mp => (attemptFill cfg o mp st).2
  | ExecOp.cancelAt mp => (cancelOrder cfg o mp st).2

/-- Apply a sequence of post-placement operations in order. -/
def applyOps (cfg : TradingConfig) (ops : List ExecOp) (o : Order) (st : Ledger) :
    Order × Ledger :=
  match ops with
  | [] => (o, st)
  | op :: rest => applyOps cfg rest (applyOp cfg op o st).1 (applyOp cfg op o st).2

/-- Orders the sweeper re-attempts: exactly those with status PENDING. -/
def pendingOrders (os : List Order) : List Order :=
  os.filter (fun o => decide (o.status = OrderStatus.PENDING))

/-- Outcome of the TradingPanel handleBuy gate: which early return fires,
or submission of the order. -/
inductive BuyGate
  | InvalidLimitPrice
  | InvalidQuantity
  | InsufficientCash
  | Submit
  deriving DecidableEq

/-- Frontend handleBuy from TradingPanel.tsx: reject a nonpositive limit price,
reject a nonpositive quantity, then block with the Insufficient available cash
toast when amount = price × quantity exceeds the user current_cash; only
otherwise is the order submitted. -/
def handleBuy (order_type : OrderKind) (price quantity cashAvailable : ℚ) : BuyGate :=
  if order_type = OrderKind.LIMIT ∧ price ≤ 0 then BuyGate.InvalidLimitPrice
  else if quantity ≤ 0 then BuyGate.InvalidQuantity
  else if cashAvailable < price * quantity then BuyGate.InsufficientCash
  else BuyGate.Submit

/-- Outcome of the TradingPanel handleSell gate. -/
inductive SellGate
  | InvalidLimitPrice
  | InvalidQuantity
  | InsufficientSellable
  | Submit
  deriving DecidableEq

/-- Frontend handleSell from TradingPanel.tsx: reject a nonpositive limit
price, reject a nonpositive quantity, then block with the Insufficient
sellable position toast when quantity exceeds the position available_quantity;
only otherwise is the order submitted. -/
def handleSell (order_type : OrderKind) (price quantity positionAvailable : ℚ) : SellGate :=
  if order_type = OrderKind.LIMIT ∧ price ≤ 0 then SellGate.InvalidLimitPrice
  else if quantity ≤ 0 then SellGate.InvalidQuantity
  else if positionAvailable < quantity then SellGate.InsufficientSellable
  else SellGate.Submit

/-- JavaScript whitespace for trim, ASCII part: space, tab, line feed,
carriage return, vertical tab, form feed. -/
def isJsSpace (c : Char) : Bool :=
  c.toNat = 32 || c.toNat = 9 || c.toNat = 10 || c.toNat = 13 || c.toNat = 11 || c.toNat = 12

/-- Test for the regex from RankingTable.tsx: does the string end in a
case-insensitive .US suffix? -/
def endsUsCI (l : List Char) : Bool :=
  match l.reverse with
  | sC :: uC :: dC :: _ =>
    (sC == 's' || sC == 'S') && (uC == 'u' || uC == 'U') && (dC == '.')
  | _ => false

/-- One application of replace with the anchored case-insensitive regex:
remove a single trailing .US when present. -/
def stripUsSuffix (l : List Char) : List Char :=
  if endsUsCI l then (l.reverse.drop 3).reverse else l

/-- JavaScript trim on the character list: drop whitespace from both ends. -/
def trimEnds (l : List Char) : List Char :=
  ((l.dropWhile isJsSpace).reverse.dropWhile isJsSpace).reverse

/-- normalizeSymbol from RankingTable.tsx: strip one trailing .US
case-insensitively, trim whitespace, convert to upper case (ASCII model of
toUpperCase). -/
def normalizeSymbol (l : List Char) : List Char :=
  (trimEnds (stripUsSuffix l)).map Char.toUpper

/-- String-level wrapper of normalizeSymbol. -/
def normalizeSymbolStr (s : String) : String :=
  String.mk (normalizeSymbol s.data)

theorem toNat_toUpper (c : Char) :
    (Char.toUpper c).toNat = if 97 ≤ c.toNat ∧ c.toNat ≤ 122 then c.toNat - 32 else c.toNat := by
  unfold Char.toUpper
  split
  · next h =>
    have hv : (c.toNat - 32).isValidChar := Or.inl (by omega)
    rw [if_pos (by omega), Char.ofNat, dif_pos hv]
    simp [Char.ofNatAux, Char.toNat, UInt32.toNat]
  · next h => rw [if_neg (by omega)]

theorem toUpper_id_of_not_lower (c : Char) (h : ¬ (97 ≤ c.toNat ∧ c.toNat ≤ 122)) :
    Char.toUpper c = c := by
  unfold Char.toUpper
  rw [if_neg (by omega)]

theorem toUpper_toUpper (c : Char) : Char.toUpper (Char.toUpper c) = Char.toUpper c := by
  by_cases h : 97 ≤ c.toNat ∧ c.toNat ≤ 122
  · have h1 : (Char.toUpper c).toNat = c.toNat - 32 := by rw [toNat_toUpper, if_pos h]
    exact toUpper_id_of_not_lower _ (by omega)
  · rw [toUpper_id_of_not_lower c h]
    exact toUpper_id_of_not_lower c h

theorem isJsSpace_toUpper (c : Char) : isJsSpace (Char.toUpper c) = isJsSpace c := by
  by_cases h : 97 ≤ c.toNat ∧ c.toNat ≤ 122
  · have h1 : (Char.toUpper c).toNat = c.toNat - 32 := by rw [toNat_toUpper, if_pos h]
    have hL : isJsSpace (Char.toUpper c) = false := by
      simp only [isJsSpace, h1]
      simp only [Bool.or_eq_false_iff, decide_eq_false_iff_not]
      omega
    have hR : isJsSpace c = false := by
      simp only [isJsSpace]
      simp only [Bool.or_eq_false_iff, decide_eq_false_iff_not]
      omega
    rw [hL, hR]
  · rw [toUpper_id_of_not_lower c h]

theorem dropWhile_head_false (p : Char → Bool) (a : Char) (t : List Char)
    (h : (a :: t).dropWhile p = a :: t) : p a = false := by
  have h1 := (List.dropWhile_eq_self_iff.mp h) (by simp)
  simpa using h1

theorem trimmed_after_right_trim (p : Char → Bool) (l : List Char)
    (hl : l.dropWhile p = l) :
    ((l.reverse.dropWhile p).reverse).dropWhile p = (l.reverse.dropWhile p).reverse := by
  cases l with
  | nil => rfl
  | cons a t =>
    have ha : p a = false := dropWhile_head_false p a t hl
    rw [List.reverse_cons, List.dropWhile_append]
    split
    · simp [List.dropWhile_cons, ha]
    · rw [List.reverse_append]
      simp [List.dropWhile_cons, ha]

theorem trimEnds_trimEnds (l : List Char) : trimEnds (trimEnds l) = trimEnds l := by
  unfold trimEnds
  rw [trimmed_after_right_trim isJsSpace (l.dropWhile isJsSpace)
    (List.dropWhile_idempotent isJsSpace l)]
  rw [List.reverse_reverse, List.dropWhile_idempotent]

theorem dropWhile_map_comm (f : Char → Char) (p : Char → Bool)
    (hf : ∀ c, p (f c) = p c) (l : List Char) :
    (l.map f).dropWhile p = (l.dropWhile p).map f := by
  induction l with
  | nil => rfl
  | cons a t ih =>
    simp only [List.map_cons, List.dropWhile_cons, hf a]
    split
    · exact ih
    · rfl

theorem trimEnds_map_toUpper (l : List Char) :
    trimEnds (l.map Char.toUpper) = (trimEnds l).map Char.toUpper := by
  unfold trimEnds
  rw [dropWhile_map_comm Char.toUpper isJsSpace isJsSpace_toUpper l]
  rw [← List.map_reverse]
  rw [dropWhile_map_comm Char.toUpper isJsSpace isJsSpace_toUpper]
  rw [← List.map_reverse]

theorem map_toUpper_idem (l : List Char) :
    (l.map Char.toUpper).map Char.toUpper = l.map Char.toUpper := by
  induction l with
  | nil => rfl
  | cons a t ih => simp only [List.map_cons, toUpper_toUpper, ih]

theorem stripUsSuffix_of_not_ends (l : List Char) (h : endsUsCI l = false) :
    stripUsSuffix l = l := by
  simp [stripUsSuffix, h]

/-- Claim C10 (amended): normalizeSymbol is idempotent on every input whose
normalised form does not itself end in a case-insensitive .US suffix; on such
inputs a second application changes nothing. -/
theorem normalizeSymbol_idem_unless_us_suffix (l : List Char)
    (h : endsUsCI (normalizeSymbol l) = false) :
    normalizeSymbol (normalizeSymbol l) = normalizeSymbol l := by
  conv_lhs => rw [normalizeSymbol]
  rw [stripUsSuffix_of_not_ends _ h]
  rw [normalizeSymbol, trimEnds_map_toUpper, trimEnds_trimEnds, map_toUpper_idem]

/-- Witness for C10 (amended) at the concrete input " aapl.us". -/
theorem normalizeSymbol_idem_unless_us_suffix_witness :
    endsUsCI (normalizeSymbol ((" aapl.us" : String).data)) = false ∧
    normalizeSymbol (normalizeSymbol ((" aapl.us" : String).data)) =
      normalizeSymbol ((" aapl.us" : String).data) :=
  And.intro (by decide) (normalizeSymbol_idem_unless_us_suffix _ (by decide))

/-- Claim C10 counterexample: on the input AAPL.US.US the function strips one
.US per application, so a second application changes the result and
idempotence fails. -/
theorem normalizeSymbol_not_idem :
    normalizeSymbolStr ("AAPL.US.US") = "AAPL.US" ∧
    normalizeSymbolStr (normalizeSymbolStr ("AAPL.US.US")) = "AAPL" ∧
    normalizeSymbolStr (normalizeSymbolStr ("AAPL.US.US")) ≠
      normalizeSymbolStr ("AAPL.US.US") := by
  refine And.intro (by decide) (And.intro (by decide) (by decide))

/-- Claim C6: cancelling an order that is not PENDING fails with NotPending and
changes nothing: the order record and the whole ledger (cash, frozen cash,
positions, trades) are returned exactly as they were. -/
theorem cancel_non_pending_no_mutation (cfg : TradingConfig) (o : Order) (mp : Option ℚ)
    (st : Ledger) (h : o.status ≠ OrderStatus.PENDING) :
    cancelOrder cfg o mp st = (Except.error CancelError.NotPending, o, st) := by
  simp [cancelOrder, h]

/-- Concrete FILLED order used by several witnesses. -/
def filledOrder : Order :=
  Order.mk "AAPL" Side.BUY OrderKind.MARKET none 1 1 OrderStatus.FILLED

/-- Concrete ledger used by several witnesses. -/
def smallLedger : Ledger :=
  Ledger.mk (UserAccount.mk 1000 50) [] []

/-- Witness for C6 at a concrete FILLED order. -/
theorem cancel_non_pending_no_mutation_witness :
    cancelOrder usConfig filledOrder (some 100) smallLedger =
      (Except.error CancelError.NotPending, filledOrder, smallLedger) :=
  cancel_non_pending_no_mutation usConfig filledOrder (some 100) smallLedger (by decide)

/-- Claim C7: when the price source fails during an execution attempt on a
PENDING MARKET order, the outcome is StillPending rather than an error, the
order and ledger are untouched, the order remains PENDING, and the sweeper
pending scan still selects it. -/
theorem market_price_failure_still_pending (cfg : TradingConfig) (o : Order) (st : Ledger)
    (hstatus : o.status = OrderStatus.PENDING) (_htype : o.order_type = OrderKind.MARKET) :
    attemptFill cfg o none st = (FillOutcome.StillPending, o, st) ∧
    (attemptFill cfg o none st).2.1.status = OrderStatus.PENDING ∧
    ∀ os : List Order, o ∈ os → o ∈ pendingOrders os := by
  refine And.intro (by simp [attemptFill, hstatus]) (And.intro ?_ ?_)
  · simp [attemptFill, hstatus]
  · intro os hmem
    simp [pendingOrders, List.mem_filter, hmem, hstatus]

/-- Concrete PENDING MARKET order used by witnesses. -/
def pendingMarketOrder : Order :=
  Order.mk "TSLA" Side.BUY OrderKind.MARKET none 5 0 OrderStatus.PENDING

/-- Witness for C7 at a concrete PENDING MARKET order. -/
theorem market_price_failure_still_pending_witness :
    attemptFill usConfig pendingMarketOrder none smallLedger =
      (FillOutcome.StillPending, pendingMarketOrder, smallLedger) ∧
    (attemptFill usConfig pendingMarketOrder none smallLedger).2.1.status =
      OrderStatus.PENDING ∧
    pendingMarketOrder ∈ pendingOrders [pendingMarketOrder] :=
  And.intro
    (market_price_failure_still_pending usConfig pendingMarketOrder smallLedger rfl rfl).1
    (And.intro
      (market_price_failure_still_pending usConfig pendingMarketOrder smallLedger rfl rfl).2.1
      ((market_price_failure_still_pending usConfig pendingMarketOrder smallLedger rfl rfl).2.2
        [pendingMarketOrder] (by simp)))

/-- Claim C1 (amended): on a BUY fill the released frozen cash is computed from
the fill itself: frozen_cash becomes max(frozen_cash − (notional + commission), 0)
with notional and commission taken at the execution price, and current_cash
decreases by exactly notional + commission. -/
theorem buyFill_releases_actual_cost (cfg : TradingConfig) (o : Order) (p : ℚ) (st : Ledger)
    (hstatus : o.status = OrderStatus.PENDING) (hside : o.side = Side.BUY)
    (hmatch : priceMatches o p = true) :
    ((attemptFill cfg o (some p) st).2.2).user.frozen_cash =
      max (st.user.frozen_cash -
        (p * (o.quantity : ℚ) + commissionFor cfg (p * (o.quantity : ℚ)))) 0 ∧
    ((attemptFill cfg o (some p) st).2.2).user.current_cash =
      st.user.current_cash -
        (p * (o.quantity : ℚ) + commissionFor cfg (p * (o.quantity : ℚ))) := by
  obtain ⟨sym, side, ot, pr, q, fq, stt⟩ := o
  simp only [Order.status] at hstatus
  simp only [Order.side] at hside
  subst hstatus
  subst hside
  simp [attemptFill, hmatch, buyFill]

/-- Witness for C1 (amended) at a concrete MARKET BUY fill. -/
theorem buyFill_releases_actual_cost_witness :
    ((attemptFill usConfig pendingMarketOrder (some 200) smallLedger).2.2).user.frozen_cash =
      max (smallLedger.user.frozen_cash -
        (200 * (pendingMarketOrder.quantity : ℚ) +
          commissionFor usConfig (200 * (pendingMarketOrder.quantity : ℚ)))) 0 ∧
    ((attemptFill usConfig pendingMarketOrder (some 200) smallLedger).2.2).user.current_cash =
      smallLedger.user.current_cash -
        (200 * (pendingMarketOrder.quantity : ℚ) +
          commissionFor usConfig (200 * (pendingMarketOrder.quantity : ℚ))) :=
  buyFill_releases_actual_cost usConfig pendingMarketOrder 200 smallLedger rfl rfl rfl

theorem applyOp_of_not_pending (cfg : TradingConfig) (op : ExecOp) (o : Order) (st : Ledger)
    (h : o.status ≠ OrderStatus.PENDING) : applyOp cfg op o st = (o, st) := by
  cases op with
  | fillAt mp => simp [applyOp, attemptFill, h]
  | cancelAt mp => simp [applyOp, cancelOrder, h]

theorem applyOps_of_not_pending (cfg : TradingConfig) (ops : List ExecOp) (o : Order)
    (st : Ledger) (h : o.status ≠ OrderStatus.PENDING) : applyOps cfg ops o st = (o, st) := by
  induction ops with
  | nil => rfl
  | cons op rest ih =>
    rw [applyOps, applyOp_of_not_pending cfg op o st h]
    exact ih

theorem applyOp_result_cases (cfg : TradingConfig) (op : ExecOp) (o : Order) (st : Ledger) :
    (applyOp cfg op o st).1.status = OrderStatus.FILLED ∨
    (applyOp cfg op o st).1.status = OrderStatus.CANCELLED ∨
    applyOp cfg op o st = (o, st) := by
  by_cases h : o.status = OrderStatus.PENDING
  · cases op with
    | fillAt mp =>
      cases mp with
      | none => right; right; simp [applyOp, attemptFill, h]
      | some p =>
        by_cases hm : priceMatches o p
        · cases hside : o.side with
          | BUY =>
            left
            simp [applyOp, attemptFill, h, hm, hside, buyFill]
          | SELL =>
            simp only [applyOp, attemptFill, h, if_pos rfl, hm, if_true, hside]
            unfold sellFill
            cases hfp : findPosition st.positions o.symbol with
            | none => right; right; simp
            | some pos =>
              by_cases hq : pos.available_quantity < o.quantity
              · right; right; simp [hq]
              · left; simp [hq]
        · right; right; simp [applyOp, attemptFill, h, hm]
    | cancelAt mp =>
      right; left
      simp [applyOp, cancelOrder, h]
  · right; right; exact applyOp_of_not_pending cfg op o st h

theorem applyOp_pending_unchanged (cfg : TradingConfig) (op : ExecOp) (o : Order)
    (st : Ledger) (h : (applyOp cfg op o st).1.status = OrderStatus.PENDING) :
    applyOp cfg op o st = (o, st) := by
  rcases applyOp_result_cases cfg op o st with hF | hC | hU
  · rw [hF] at h
    exact absurd h (by decide)
  · rw [hC] at h
    exact absurd h (by decide)
  · exact hU

/-- Claim C5: an order status makes at most one transition, from PENDING to
FILLED or CANCELLED, and a terminal order is never mutated again. First
conjunct: any sequence of execution attempts and cancellations leaves a
non-PENDING order and the ledger exactly unchanged. Second conjunct: a single
operation that leaves the status PENDING changed nothing at all. Third
conjunct: a single operation either ends FILLED, ends CANCELLED, or changed
nothing. -/
theorem order_single_transition (cfg : TradingConfig) :
    (∀ (ops : List ExecOp) (o : Order) (st : Ledger),
      o.status ≠ OrderStatus.PENDING → applyOps cfg ops o st = (o, st)) ∧
    (∀ (op : ExecOp) (o : Order) (st : Ledger),
      (applyOp cfg op o st).1.status = OrderStatus.PENDING → applyOp cfg op o st = (o, st)) ∧
    (∀ (op : ExecOp) (o : Order) (st : Ledger),
      (applyOp cfg op o st).1.status = OrderStatus.FILLED ∨
      (applyOp cfg op o st).1.status = OrderStatus.CANCELLED ∨
      applyOp cfg op o st = (o, st)) :=
  And.intro (fun ops o st h => applyOps_of_not_pending cfg ops o st h)
    (And.intro (fun op o st h => applyOp_pending_unchanged cfg op o st h)
      (fun op o st => applyOp_result_cases cfg op o st))

/-- Witness for C5: a FILLED order survives a sweeper retry and a cancel
attempt untouched. -/
theorem order_single_transition_witness :
    applyOps usConfig [ExecOp.fillAt (some 250), ExecOp.cancelAt (some 250)]
      filledOrder smallLedger = (filledOrder, smallLedger) :=
  (order_single_transition usConfig).1
    [ExecOp.fillAt (some 250), ExecOp.cancelAt (some 250)]
    filledOrder smallLedger (by decide)

/-- Claim C2: every trade produced by a fill carries commission equal to
max(commissionRate × (price × quantity), minCommission); hence the commission
is never below the minimum commission and never below rate × notional. -/
theorem fill_commission_rule (cfg : TradingConfig) (o : Order) (mp : Option ℚ)
    (st : Ledger) (t : Trade) (o2 : Order) (st2 : Ledger)
    (h : attemptFill cfg o mp st = (FillOutcome.Filled t, o2, st2)) :
    t.commission =
      max (cfg.commission_rate * (t.price * (t.quantity : ℚ))) cfg.min_commission ∧
    cfg.min_commission ≤ t.commission ∧
    cfg.commission_rate * (t.price * (t.quantity : ℚ)) ≤ t.commission := by
  have hkey : t.commission = commissionFor cfg (t.price * (t.quantity : ℚ)) := by
    unfold attemptFill at h
    split at h
    · split at h
      · exact absurd h (by simp)
      · split at h
        · split at h
          · unfold buyFill at h
            simp only [Prod.mk.injEq, FillOutcome.Filled.injEq] at h
            rw [← h.1]
          · unfold sellFill at h
            split at h
            · exact absurd h (by simp)
            · split at h
              · exact absurd h (by simp)
              · simp only [Prod.mk.injEq, FillOutcome.Filled.injEq] at h
                rw [← h.1]
        · exact absurd h (by simp)
    · exact absurd h (by simp)
  unfold commissionFor at hkey
  refine And.intro hkey ?_
  rw [hkey]
  exact And.intro (le_max_right _ _) (le_max_left _ _)

/-- Concrete ledger holding plenty of cash and nothing else. -/
def cashLedger : Ledger :=
  Ledger.mk (UserAccount.mk 100000 0) [] []

theorem buy_ne_sell : ¬ (Side.BUY = Side.SELL) := by
  simp

/-- Evaluation of a concrete MARKET BUY fill, used to feed the C2 witness. -/
theorem marketBuy_eval :
    attemptFill usConfig pendingMarketOrder (some 200) cashLedger =
      (FillOutcome.Filled (Trade.mk "TSLA" 200 5 5),
        Order.mk "TSLA" Side.BUY OrderKind.MARKET none 5 5 OrderStatus.FILLED,
        Ledger.mk (UserAccount.mk 98995 0) [Position.mk "TSLA" 5 5 200]
          [Trade.mk "TSLA" 200 5 5]) := by
  simp only [attemptFill, buyFill, pendingMarketOrder, cashLedger, priceMatches,
    commissionFor, usConfig, findPosition, updatePosition]
  norm_num [max_def]

/-- Witness for C2 at the concrete MARKET BUY fill. -/
theorem fill_commission_rule_witness :
    (Trade.mk "TSLA" 200 5 5).commission =
      max (usConfig.commission_rate *
        ((Trade.mk "TSLA" 200 5 5).price * ((Trade.mk "TSLA" 200 5 5).quantity : ℚ)))
        usConfig.min_commission ∧
    usConfig.min_commission ≤ (Trade.mk "TSLA" 200 5 5).commission ∧
    usConfig.commission_rate *
      ((Trade.mk "TSLA" 200 5 5).price * ((Trade.mk "TSLA" 200 5 5).quantity : ℚ)) ≤
      (Trade.mk "TSLA" 200 5 5).commission :=
  fill_commission_rule usConfig pendingMarketOrder (some 200) cashLedger
    (Trade.mk "TSLA" 200 5 5)
    (Order.mk "TSLA" Side.BUY OrderKind.MARKET none 5 5 OrderStatus.FILLED)
    (Ledger.mk (UserAccount.mk 98995 0) [Position.mk "TSLA" 5 5 200]
      [Trade.mk "TSLA" 200 5 5])
    marketBuy_eval

/-- Scenario A request: LIMIT BUY 10 AAPL at limit 190. -/
def scenAReq : OrderRequest :=
  OrderRequest.mk "AAPL" "US" Side.BUY OrderKind.LIMIT (some 190) 10

/-- Claim C3: with current_cash 100000 and no AAPL position, a LIMIT BUY of 10
AAPL at limit 190 while the market is at 188 is accepted (freezing the 1889.40
estimate), matches since 188 <= 190, and fills at execution price 188 with
notional 1880 and commission max(9.40, 1.00) = 9.40, leaving current_cash
98110.60 and a position of 10 shares at average cost 188. -/
theorem scenarioA_limit_buy :
    placeOrder usConfig scenAReq (some 188) cashLedger =
      (Except.ok (newOrder scenAReq),
        Ledger.mk (UserAccount.mk 100000 (9447/5)) [] []) ∧
    attemptFill usConfig (newOrder scenAReq) (some 188)
        (Ledger.mk (UserAccount.mk 100000 (9447/5)) [] []) =
      (FillOutcome.Filled (Trade.mk "AAPL" 188 10 (47/5)),
        Order.mk "AAPL" Side.BUY OrderKind.LIMIT (some 190) 10 10 OrderStatus.FILLED,
        Ledger.mk (UserAccount.mk (490553/5) 0) [Position.mk "AAPL" 10 10 188]
          [Trade.mk "AAPL" 188 10 (47/5)]) ∧
    (47 : ℚ)/5 = 9.40 ∧ (490553 : ℚ)/5 = 98110.60 ∧ (9447 : ℚ)/5 = 1880 + 47/5 := by
  refine And.intro ?_ (And.intro ?_ ?_)
  · simp only [placeOrder, scenAReq, cashLedger, refPrice, freezeEstimate,
      commissionFor, usConfig, newOrder]
    norm_num [max_def, min_def, buy_ne_sell]
  · simp only [attemptFill, buyFill, newOrder, scenAReq, priceMatches,
      commissionFor, usConfig, findPosition, updatePosition]
    norm_num [max_def]
  · norm_num

/-- Placement state for the C1 counterexample: the BUY is placed while the
market is at 189, so the frozen estimate is computed at ref price
min(190, 189) = 189 and equals 1899.45; the later fill happens at 188. -/
theorem buyFill_frozen_release_cex :
    placeOrder usConfig scenAReq (some 189) cashLedger =
      (Except.ok (newOrder scenAReq),
        Ledger.mk (UserAccount.mk 100000 (37989/20)) [] []) ∧
    freezeEstimate usConfig 189 10 = 37989/20 ∧
    ((attemptFill usConfig (newOrder scenAReq) (some 188)
        (Ledger.mk (UserAccount.mk 100000 (37989/20)) [] [])).2.2).user.frozen_cash =
      201/20 ∧
    max ((37989 : ℚ)/20 - freezeEstimate usConfig 189 10) 0 = 0 ∧
    (201 : ℚ)/20 ≠ 0 := by
  refine And.intro ?_ (And.intro ?_ (And.intro ?_ (And.intro ?_ (by norm_num))))
  · simp only [placeOrder, scenAReq, cashLedger, refPrice, freezeEstimate,
      commissionFor, usConfig, newOrder]
    norm_num [max_def, min_def, buy_ne_sell]
  · simp only [freezeEstimate, commissionFor, usConfig]
    norm_num [max_def]
  · simp only [attemptFill, buyFill, newOrder, scenAReq, priceMatches,
      commissionFor, usConfig, findPosition, updatePosition]
    norm_num [max_def]
  · simp only [freezeEstimate, commissionFor, usConfig]
    norm_num [max_def]

theorem findPosition_map_update (ps : List Position) (q : Position)
    (h : (findPosition ps q.symbol).isSome) :
    findPosition (ps.map (fun p => if p.symbol == q.symbol then q else p)) q.symbol =
      some q := by
  induction ps with
  | nil => simp [findPosition] at h
  | cons a t ih =>
    rw [List.map_cons]
    by_cases ha : a.symbol == q.symbol
    · rw [if_pos ha]
      unfold findPosition
      exact List.find?_cons_of_pos _ (beq_self_eq_true q.symbol)
    · rw [if_neg ha]
      have hfa : (a.symbol == q.symbol) = false := by simpa using ha
      unfold findPosition
      simp only [List.find?_cons, hfa]
      have h2 : (findPosition t q.symbol).isSome := by
        unfold findPosition at h
        simp only [List.find?_cons, hfa] at h
        exact h
      exact ih h2

theorem findPosition_updatePosition (ps : List Position) (q : Position)
    (h : (findPosition ps q.symbol).isSome) :
    findPosition (updatePosition ps q) q.symbol = some q := by
  unfold updatePosition
  rw [if_pos h]
  exact findPosition_map_update ps q h

/-- Claim C4: a SELL fill of quantity q at price p decreases the position
quantity and available_quantity by exactly q (the add-back equations certify
the decrease is exact over naturals) and credits current_cash with exactly
p times q minus the commission. -/
theorem sell_fill_effects (cfg : TradingConfig) (o : Order) (p : ℚ) (st : Ledger)
    (pos : Position) (hstatus : o.status = OrderStatus.PENDING)
    (hside : o.side = Side.SELL) (hmatch : priceMatches o p = true)
    (hpos : findPosition st.positions o.symbol = some pos)
    (havail : o.quantity ≤ pos.available_quantity)
    (hinv : pos.available_quantity ≤ pos.quantity) :
    findPosition ((attemptFill cfg o (some p) st).2.2).positions o.symbol =
      some (Position.mk o.symbol (pos.quantity - o.quantity)
        (pos.available_quantity - o.quantity) pos.avg_cost) ∧
    (pos.quantity - o.quantity) + o.quantity = pos.quantity ∧
    (pos.available_quantity - o.quantity) + o.quantity = pos.available_quantity ∧
    ((attemptFill cfg o (some p) st).2.2).user.current_cash =
      st.user.current_cash +
        (p * (o.quantity : ℚ) - commissionFor cfg (p * (o.quantity : ℚ))) := by
  obtain ⟨sym, side, ot, pr, q, fq, stt⟩ := o
  simp only [Order.status] at hstatus
  simp only [Order.side] at hside
  simp only [Order.symbol] at hpos
  simp only [Order.quantity] at havail
  subst hstatus
  subst hside
  have hlt : ¬ pos.available_quantity < q := Nat.not_lt.mpr havail
  simp only [attemptFill, sellFill, hmatch, hpos, hlt, Order.symbol, Order.quantity,
    Order.status, if_true, if_false, ite_true, ite_false, if_pos rfl]
  refine And.intro ?_ (And.intro (Nat.sub_add_cancel (le_trans havail hinv))
    (And.intro (Nat.sub_add_cancel havail) ?_))
  · exact findPosition_updatePosition st.positions
      (Position.mk sym (pos.quantity - q) (pos.available_quantity - q) pos.avg_cost)
      (by simp [hpos])
  · simp

/-- Concrete PENDING MARKET SELL order. -/
def pendingMarketSell : Order :=
  Order.mk "AAPL" Side.SELL OrderKind.MARKET none 4 0 OrderStatus.PENDING

/-- Concrete ledger holding an AAPL position of 10 shares, 9 available. -/
def posLedger : Ledger :=
  Ledger.mk (UserAccount.mk 1000 0) [Position.mk "AAPL" 10 9 150] []

/-- Witness for C4 at a concrete MARKET SELL fill of 4 of 9 available shares. -/
theorem sell_fill_effects_witness :
    findPosition ((attemptFill usConfig pendingMarketSell (some 100) posLedger).2.2).positions
        pendingMarketSell.symbol =
      some (Position.mk pendingMarketSell.symbol
        ((Position.mk "AAPL" 10 9 150).quantity - pendingMarketSell.quantity)
        ((Position.mk "AAPL" 10 9 150).available_quantity - pendingMarketSell.quantity)
        (Position.mk "AAPL" 10 9 150).avg_cost) ∧
    ((Position.mk "AAPL" 10 9 150).quantity - pendingMarketSell.quantity) +
        pendingMarketSell.quantity = (Position.mk "AAPL" 10 9 150).quantity ∧
    ((Position.mk "AAPL" 10 9 150).available_quantity - pendingMarketSell.quantity) +
        pendingMarketSell.quantity = (Position.mk "AAPL" 10 9 150).available_quantity ∧
    ((attemptFill usConfig pendingMarketSell (some 100) posLedger).2.2).user.current_cash =
      posLedger.user.current_cash +
        (100 * (pendingMarketSell.quantity : ℚ) -
          commissionFor usConfig (100 * (pendingMarketSell.quantity : ℚ))) :=
  sell_fill_effects usConfig pendingMarketSell 100 posLedger
    (Position.mk "AAPL" 10 9 150) rfl rfl rfl rfl (by decide) (by decide)

/-- Claim C8: a SELL request is accepted only when the position for the symbol
has available_quantity at least the requested quantity; when every (or no)
position row fails that bound and the other validations pass, placement
rejects with InsufficientPosition and returns the ledger unchanged, persisting
no order. -/
theorem sell_requires_available_position (cfg : TradingConfig) (req : OrderRequest)
    (mp : Option ℚ) (st : Ledger) (hside : req.side = Side.SELL) :
    (∀ o, (placeOrder cfg req mp st).1 = Except.ok o →
      ∃ pos, findPosition st.positions req.symbol = some pos ∧
        req.quantity ≤ pos.available_quantity) ∧
    ((∀ pos, findPosition st.positions req.symbol = some pos →
        pos.available_quantity < req.quantity) →
      req.market = "US" → 1 ≤ req.quantity → req.quantity % cfg.lot_size = 0 →
      placeOrder cfg req mp st = (Except.error RejectReason.InsufficientPosition, st)) := by
  obtain ⟨sym, mkt, side, ot, pr, qty⟩ := req
  simp only [OrderRequest.side] at hside
  subst hside
  constructor
  · intro o ho
    unfold placeOrder at ho
    simp only [OrderRequest.market, OrderRequest.quantity, OrderRequest.symbol,
      OrderRequest.side, OrderRequest.price] at ho ⊢
    split at ho
    · exact absurd ho (by simp)
    · split at ho
      · exact absurd ho (by simp)
      · simp only [if_true] at ho
        split at ho
        · exact absurd ho (by simp)
        · rename_i pos hfp
          split at ho
          · exact absurd ho (by simp)
          · rename_i hq
            exact Exists.intro pos (And.intro hfp (Nat.not_lt.mp hq))
  · intro hins hmkt hq1 hqlot
    simp only [OrderRequest.market] at hmkt
    simp only [OrderRequest.quantity] at hq1 hqlot
    simp only [OrderRequest.symbol, OrderRequest.quantity] at hins
    subst hmkt
    unfold placeOrder
    simp only [OrderRequest.market, OrderRequest.quantity, OrderRequest.symbol,
      OrderRequest.side, OrderRequest.price]
    rw [if_neg (by simp)]
    rw [if_neg (fun hc => Or.elim hc
      (fun hlt => absurd hq1 (Nat.not_le.mpr hlt)) (fun hne => hne hqlot))]
    simp only [if_true]
    cases hfp : findPosition st.positions sym with
    | none => simp
    | some pos =>
      have hlt := hins pos hfp
      simp [hlt]

/-- Concrete SELL request for 4 shares of AAPL. -/
def sellReq : OrderRequest :=
  OrderRequest.mk "AAPL" "US" Side.SELL OrderKind.MARKET none 4

/-- Concrete ledger whose AAPL position has only 2 available shares. -/
def lowLedger : Ledger :=
  Ledger.mk (UserAccount.mk 1000 0) [Position.mk "AAPL" 10 2 150] []

/-- Witness for C8: selling 4 shares with only 2 available is rejected with
InsufficientPosition and the ledger is returned unchanged. -/
theorem sell_requires_available_position_witness :
    placeOrder usConfig sellReq (some 100) lowLedger =
      (Except.error RejectReason.InsufficientPosition, lowLedger) :=
  (sell_requires_available_position usConfig sellReq (some 100) lowLedger rfl).2
    (by
      intro pos h
      rw [show findPosition lowLedger.positions sellReq.symbol =
        some (Position.mk "AAPL" 10 2 150) from rfl] at h
      cases Option.some.inj h
      decide)
    rfl (by decide) (by decide)

/-- Claim C9 (amended): the modelled backend validator rejects a BUY with
InsufficientFunds only on the basis of the computed freeze estimate exceeding
the unfrozen cash; the frontend handleBuy gate, however, performs an earlier
hard funds check: it submits only when price × quantity is within current_cash
and blocks with the insufficient-cash toast whenever price × quantity exceeds
current_cash, before any freeze estimate exists. -/
theorem buy_funds_checks (cfg : TradingConfig) (req : OrderRequest) (mp : Option ℚ)
    (st : Ledger) (price quantity cash : ℚ) (hside : req.side = Side.BUY) :
    ((placeOrder cfg req mp st).1 = Except.error RejectReason.InsufficientFunds →
      ∀ ref, refPrice req.price mp = some ref →
        st.user.current_cash - st.user.frozen_cash < freezeEstimate cfg ref req.quantity) ∧
    (handleBuy OrderKind.LIMIT price quantity cash = BuyGate.Submit →
      price * quantity ≤ cash) ∧
    (0 < price → 0 < quantity → cash < price * quantity →
      handleBuy OrderKind.LIMIT price quantity cash = BuyGate.InsufficientCash) := by
  obtain ⟨sym, mkt, side, ot, pr, qty⟩ := req
  simp only [OrderRequest.side] at hside
  subst hside
  refine And.intro ?_ (And.intro ?_ ?_)
  · intro h ref href
    unfold placeOrder at h
    simp only [OrderRequest.market, OrderRequest.quantity, OrderRequest.symbol,
      OrderRequest.side, OrderRequest.price] at h ⊢
    split at h
    · exact absurd h (by simp)
    · split at h
      · exact absurd h (by simp)
      · rw [if_neg (by simp)] at h
        split at h
        · rename_i heq
          rw [href] at heq
          exact absurd heq (by simp)
        · rename_i r heq
          rw [href] at heq
          have hr : ref = r := by simpa using heq
          subst hr
          split at h
          · rename_i hlt
            exact hlt
          · exact absurd h (by simp)
  · intro hsub
    unfold handleBuy at hsub
    split at hsub
    · exact absurd hsub (by simp)
    · split at hsub
      · exact absurd hsub (by simp)
      · split at hsub
        · exact absurd hsub (by simp)
        · rename_i hnlt
          exact not_lt.mp hnlt
  · intro hp hq hlt
    unfold handleBuy
    rw [if_neg (by simp only [not_and]; intro; linarith)]
    rw [if_neg (by linarith)]
    rw [if_pos hlt]

/-- Witness for C9 (amended): at price 150, quantity 1 and cash 120 the
frontend gate fires its funds check before any estimate exists. -/
theorem buy_funds_checks_witness :
    handleBuy OrderKind.LIMIT 150 1 120 = BuyGate.InsufficientCash :=
  (buy_funds_checks usConfig scenAReq (some 188) cashLedger 150 1 120 rfl).2.2
    (by norm_num) (by norm_num) (by norm_num)

/-- Claim C9 counterexample: with current_cash 120 and frozen 0, a LIMIT BUY
of 1 share at limit 150 while the market is at 100 is blocked by the frontend
funds check (price × quantity = 150 exceeds cash), even though the backend
estimate at ref price min(150, 100) = 100 is 101 and would be accepted; so a
funds check earlier than the freeze estimate does block submissions. -/
theorem handleBuy_early_funds_check_cex :
    handleBuy OrderKind.LIMIT 150 1 120 = BuyGate.InsufficientCash ∧
    handleBuy OrderKind.LIMIT 150 1 120 ≠ BuyGate.Submit ∧
    (placeOrder usConfig (OrderRequest.mk "AAPL" "US" Side.BUY OrderKind.LIMIT (some 150) 1)
        (some 100) (Ledger.mk (UserAccount.mk 120 0) [] [])).1 =
      Except.ok
        (newOrder (OrderRequest.mk "AAPL" "US" Side.BUY OrderKind.LIMIT (some 150) 1)) := by
  have h1 : handleBuy OrderKind.LIMIT 150 1 120 = BuyGate.InsufficientCash := by
    unfold handleBuy
    rw [if_neg (by simp only [not_and]; intro; norm_num)]
    rw [if_neg (by norm_num)]
    rw [if_pos (by norm_num)]
  refine And.intro h1 (And.intro (by rw [h1]; simp) ?_)
  simp only [placeOrder, refPrice, freezeEstimate, commissionFor, usConfig, newOrder]
  norm_num [max_def, min_def, buy_ne_sell]

end Screener
